import Mathlib

/-!
Shallow embedding of the lifecycle-coordination layer of octo-sts-distros:
the readiness gate, config-wait retry loop, reload coordinator, SSM value
resolver and the long-running HTTP adapter's header normalization, together
with proofs of the specified properties.
-/

namespace OctoSts

/-- An HTTP response as written to the response writer: status code, headers
in the order they are set, and the body text. -/
structure HTTPResponse where
  status : Nat
  headers : List (String × String)
  body : String
deriving Repr, DecidableEq

/-- Models the body produced by encoding the map with keys "error" and
"message" with Go's JSON encoder in `ReadyGate.serveUnavailable`
(src/pkg/ghappsetup/configwait/configwait.go): Go marshals map keys in
sorted order ("error" before "message") and the stream encoder appends a
newline.  The messages the gate uses contain no characters that the JSON
encoder escapes, so they pass through verbatim. -/
def unavailableJSON (message : String) : String :=
  "\x7b\"error\":\"service_unavailable\",\"message\":\"" ++ message ++ "\"\x7d\n"

/-- Models `ReadyGate.serveUnavailable`: writes Content-Type and Retry-After
headers, status 503, and the JSON error body. -/
def serveUnavailable (message : String) : HTTPResponse :=
  { status := 503
    headers := [("Content-Type", "application/json"), ("Retry-After", "5")]
    body := unavailableJSON message }

/-- Models `ReadyGate` from src/pkg/ghappsetup/configwait/configwait.go.  `H` is the
type of installed handlers (`http.Handler`); the `handler` atomic value is an
`Option H` (`none` when no handler was ever stored).  `handlerReadyClosed`
models whether the `handlerReady` channel has been closed. -/
structure ReadyGate (H : Type) where
  allowedPaths : List String
  ready : Bool
  handler : Option H
  handlerReadyClosed : Bool

/-- Models `NewReadyGate`: stores `inner` in the handler slot when non-nil,
readiness starts false, the handlerReady channel starts open. -/
def NewReadyGate {H : Type} (inner : Option H) (allowedPaths : List String) :
    ReadyGate H :=
  { allowedPaths := allowedPaths
    ready := false
    handler := inner
    handlerReadyClosed := false }

/-- Models `ReadyGate.SetReady`: stores true into the ready flag. -/
def SetReady {H : Type} (rg : ReadyGate H) : ReadyGate H :=
  { rg with ready := true }

/-- Models `ReadyGate.SetHandler`: stores the handler and closes the handlerReady
channel if it is not closed yet. -/
def SetHandler {H : Type} (rg : ReadyGate H) (h : H) : ReadyGate H :=
  { rg with handler := some h, handlerReadyClosed := true }

/-- Models `ReadyGate.IsReady`: loads the ready flag. -/
def IsReady {H : Type} (rg : ReadyGate H) : Bool :=
  rg.ready

/-- Models `strings.HasPrefix pre s` as a prefix test on the character data
(Go compares byte prefixes; on well-formed UTF-8 this agrees with the
character-level prefix test). -/
def goHasPre (s pre : String) : Bool :=
  pre.data.isPrefixOf s.data

/-- Models `ReadyGate.isAllowedPath`: an allowed entry "/" matches only the exact
path "/" (otherwise the loop continues); any other entry matches by
`strings.HasPrefix`. -/
def isAllowedPath {H : Type} (rg : ReadyGate H) (path : String) : Bool :=
  rg.allowedPaths.any fun allowed =>
    if allowed = "/" then path == "/" else goHasPre path allowed

/-- Models `ReadyGate.ServeHTTP` for a single request with path `path`.  `dispatch`
runs a handler on the current request and response writer, producing the
response it writes. -/
def ServeHTTP {H : Type} (rg : ReadyGate H) (dispatch : H → HTTPResponse)
    (path : String) : HTTPResponse :=
  if isAllowedPath rg path then
    match rg.handler with
    | some h => dispatch h
    | none => serveUnavailable "service starting up"
  else if !rg.ready then
    serveUnavailable "service not ready, configuration loading"
  else
    match rg.handler with
    | some h => dispatch h
    | none => serveUnavailable "service starting up"

/-- Iterated `SetReady` (used to state idempotence of `markReady`). -/
def setReadyTimes {H : Type} : Nat → ReadyGate H → ReadyGate H
  | 0, rg => rg
  | n + 1, rg => SetReady (setReadyTimes n rg)

/-- A concrete gate used to instantiate the universally quantified gate
theorems: allow-list from cmd/http-app (health endpoint only), not ready,
no handler installed. -/
def sampleGate : ReadyGate Unit :=
  NewReadyGate none ["/healthz"]

/-- A concrete dispatch function for the sample gate. -/
def sampleDispatch : Unit → HTTPResponse :=
  fun _ => ⟨200, [], "ok"⟩

/-- Models `Config` from src/pkg/ghappsetup/configwait/configwait.go:
`MaxRetries` is a Go int, `RetryInterval` a `time.Duration` counted in
nanoseconds. -/
structure Config where
  MaxRetries : Int
  RetryInterval : Int
deriving Repr, DecidableEq

/-- Models the cancellation behaviour of the `context.Context` passed to
`Wait`: whether it was already cancelled when `Wait` was entered, whether
cancellation arrives during the sleep that follows attempt `n`, and the
error `ctx.Err()` reports once cancelled. -/
structure Ctx (E : Type) where
  cancelledBefore : Bool
  cancelledDuring : Nat → Bool
  err : E

/-- Cancellation as observed by the `select` in the sleep after attempt `n`:
the Done channel is ready there if the context was cancelled before `Wait`
started or cancellation arrives during that sleep. -/
def ctxCancelAt {E : Type} (ctx : Ctx E) (n : Nat) : Bool :=
  ctx.cancelledBefore || ctx.cancelledDuring n

/-- Observable outcome of a `Wait` run: the returned error (`none` models a
nil error), how many times the load function was invoked, and how many
inter-attempt sleeps completed. -/
structure WaitOut (E : Type) where
  res : Option E
  calls : Nat
  sleeps : Nat
deriving Repr, DecidableEq

/-- Models the body of `Wait`'s retry loop from attempt number `attempt`
with last recorded error `lastErr`.  `load n` is the outcome of the n-th
invocation of the load function (`none` models a nil error).  The loop runs
while `attempt <= cfg.MaxRetries`; `fuel` bounds the remaining iterations
(callers pass `cfg.MaxRetries.toNat`, which the loop never exceeds, so the
fuel-exhaustion branch coincides with the loop-exit branch returning
`lastErr`).  On a failed attempt that is not the last, the `select` between
`ctx.Done()` and the retry timer returns `ctx.Err()` when cancellation is
observed, else the sleep completes and the loop continues. -/
def waitFrom {E : Type} (cfg : Config) (ctx : Ctx E) (load : Nat → Option E) :
    Nat → Nat → Option E → WaitOut E
  | 0, _, lastErr => ⟨lastErr, 0, 0⟩
  | fuel + 1, attempt, lastErr =>
    if (attempt : Int) > cfg.MaxRetries then ⟨lastErr, 0, 0⟩
    else
      match load attempt with
      | some e =>
        if (attempt : Int) < cfg.MaxRetries then
          if ctxCancelAt ctx attempt then ⟨some ctx.err, 1, 0⟩
          else
            let r := waitFrom cfg ctx load fuel (attempt + 1) (some e)
            ⟨r.res, r.calls + 1, r.sleeps + 1⟩
        else ⟨some e, 1, 0⟩
      | none => ⟨none, 1, 0⟩

/-- Models `Wait(ctx, cfg, load)`: run the retry loop from attempt 1 with no
last error recorded. -/
def Wait {E : Type} (cfg : Config) (ctx : Ctx E) (load : Nat → Option E) :
    WaitOut E :=
  waitFrom cfg ctx load cfg.MaxRetries.toNat 1 none

/-- Models the first `if` block of `NewConfigFromEnv`: override `MaxRetries`
only when the variable is set, `strconv.Atoi` succeeds and the value is
positive.  `v` is the value read from the environment and `atoi` the
outcome of `strconv.Atoi` (`some n` on success). -/
def applyEnvMaxRetries (cfg : Config) (v : String) (atoi : String → Option Int) :
    Config :=
  if v ≠ "" then
    match atoi v with
    | some n => if n > 0 then { cfg with MaxRetries := n } else cfg
    | none => cfg
  else cfg

/-- Models the second `if` block of `NewConfigFromEnv`: override
`RetryInterval` only when the variable is set, `time.ParseDuration` succeeds
and the duration is positive. -/
def applyEnvRetryInterval (cfg : Config) (v : String)
    (parseDur : String → Option Int) : Config :=
  if v ≠ "" then
    match parseDur v with
    | some d => if d > 0 then { cfg with RetryInterval := d } else cfg
    | none => cfg
  else cfg

/-- Models `NewConfigFromEnv`, parameterized by the environment (`getenv`
models `os.Getenv`, an unset variable reading as "") and by the outcomes of
`strconv.Atoi` and `time.ParseDuration`.  The defaults are 30 attempts and
2s (2e9 ns). -/
def NewConfigFromEnv (getenv : String → String) (atoi : String → Option Int)
    (parseDur : String → Option Int) : Config :=
  applyEnvRetryInterval
    (applyEnvMaxRetries ⟨30, 2000000000⟩ (getenv "CONFIG_WAIT_MAX_RETRIES") atoi)
    (getenv "CONFIG_WAIT_RETRY_INTERVAL") parseDur

/-- A context that is never cancelled. -/
def ctxNever : Ctx Nat :=
  ⟨false, fun _ => false, 0⟩

/-- A load function failing on attempts 1 and 2 and succeeding on attempt 3. -/
def loadThird : Nat → Option Nat :=
  fun i => if i = 3 then none else some i

/-- State of the Reloader burst scenario from
src/internal/configwait/reloader.go: `trigs` counts the burst's Trigger
calls not yet made, `pending` whether the capacity-1 `reloadCh` currently
holds a queued trigger, `running` the `reloading` flag, and `started` /
`finished` count `doReload` executions begun / completed by the single
background listener. -/
structure RState where
  trigs : Nat
  pending : Bool
  running : Bool
  started : Nat
  finished : Nat
deriving Repr, DecidableEq

/-- Atomic events of the Reloader scenario: a `Trigger()` call arrives, the
background listener receives from `reloadCh` and enters `doReload`, or the
running `doReload` (the load function) completes. -/
inductive RAct where
  | trigger
  | start
  | finish
deriving Repr, DecidableEq

/-- Enabledness of each event.  A trigger can arrive while the burst has
calls left; the listener can start a `doReload` when a trigger is queued and
no reload is running (the listener goroutine is blocked inside `doReload`
while one runs, so it cannot receive concurrently); the scenario constraint
"three calls in rapid succession while the load function is slow" is that a
running reload cannot finish before the whole burst has arrived. -/
def enabledAct : RState → RAct → Bool
  | s, .trigger => s.trigs != 0
  | s, .start => s.pending && !s.running
  | s, .finish => s.running && s.trigs == 0

/-- Effect of each event.  `Trigger` performs a non-blocking send on the
capacity-1 channel: it queues when the slot is free and is dropped when one
is already queued — either way the slot is occupied afterwards.  `start`
consumes the queued trigger and sets the `reloading` flag (the flag check in
`doReload` never skips here because the single listener runs reloads
sequentially); `finish` clears the flag in `doReload`'s deferred unlock. -/
def applyAct : RState → RAct → RState
  | s, .trigger => { s with trigs := s.trigs - 1, pending := true }
  | s, .start => { s with pending := false, running := true, started := s.started + 1 }
  | s, .finish => { s with running := false, finished := s.finished + 1 }

/-- Runs a sequence of events, failing if an event fires while not enabled. -/
def runTrace : RState → List RAct → Option RState
  | s, [] => some s
  | s, a :: tr => if enabledAct s a then runTrace (applyAct s a) tr else none

/-- Initial state of the claim's scenario: three Trigger calls to come,
empty channel, no reload running. -/
def initBurst : RState :=
  ⟨3, false, false, 0, 0⟩

/-- A state is settled when no event can fire any more: the burst is done,
nothing is queued, nothing runs. -/
def settledState (s : RState) : Bool :=
  !enabledAct s RAct.trigger && !enabledAct s RAct.start && !enabledAct s RAct.finish

/-- Invariant of the burst scenario: the start counter tracks finishes plus
the running flag; while the burst is still arriving nothing has finished;
at most two and (once any trigger arrived) at least one reload is started or
queued. -/
def RInv (s : RState) : Prop :=
  s.started = s.finished + s.running.toNat ∧
  (0 < s.trigs → s.finished = 0) ∧
  s.started + s.pending.toNat ≤ 2 ∧
  (s.trigs < 3 → 1 ≤ s.started + s.pending.toNat)

/-- Final state reached by a complete interleaving of the burst scenario. -/
def rburstFinal : RState :=
  ⟨0, false, false, 2, 2⟩

/-- Models the `reloading` flag of `Reloader` for a single `doReload` call. -/
structure ReloadState where
  reloading : Bool
deriving Repr, DecidableEq

/-- Models one run of the reload function (`ReloadFunc`), per its contract
in src/internal/configwait/reloader.go and its instantiation `loadConfig` in
cmd/http-app/main.go: `outcome` is the result of rebuilding configuration
and handler.  On success the function installs the new handler on the gate
and marks it ready, returning nil; every error path returns before touching
the gate. -/
def runReloadFunc {H E : Type} (outcome : Except E H) (g : ReadyGate H) :
    ReadyGate H × Option E :=
  match outcome with
  | .error e => (g, some e)
  | .ok h => (SetReady (SetHandler g h), none)

/-- Models `Reloader.doReload`: when a reload is already in progress it
returns at once (gate untouched); otherwise it sets the `reloading` flag,
runs the reload function, logs (and otherwise ignores) a failure, and
clears the flag in a deferred unlock.  It is a total function — the Go code
only logs errors and never terminates the process. -/
def doReload {H E : Type} (outcome : Except E H) (rs : ReloadState)
    (g : ReadyGate H) : ReloadState × ReadyGate H :=
  if rs.reloading then (rs, g)
  else
    let res := runReloadFunc outcome g
    (⟨false⟩, res.1)

/-- Splits a character list at its first colon, returning the colon-free
run before it and the remainder after it; none when no colon occurs. -/
def splitFirstColon : List Char → Option (List Char × List Char)
  | [] => none
  | c :: rest =>
    if c = ':' then some ([], rest)
    else
      match splitFirstColon rest with
      | some (a, b) => some (c :: a, b)
      | none => none

/-- Drops `pre` from the front of `s`, or none when `s` does not start
with `pre`. -/
def dropPre : List Char → List Char → Option (List Char)
  | s, [] => some s
  | [], _ :: _ => none
  | c :: s, p :: ps => if c = p then dropPre s ps else none

/-- Models the anchored RE2 pattern of src/internal/ssmresolver/resolver.go
matching SSM parameter ARNs, on the character data of a value, returning
the capture group (the parameter path) on a full match and none otherwise.
The decomposition is unambiguous: each character class excluding the colon
must stop exactly at the next colon, the literal "parameter/" follows, and
the final group needs a nonempty remainder containing no newline (RE2's dot
does not match a newline and the trailing anchor binds to the end of the
text). -/
def ssmARNCapture (cs : List Char) : Option (List Char) :=
  match dropPre cs "arn:aws:ssm:".data with
  | none => none
  | some rest =>
    match splitFirstColon rest with
    | none => none
    | some (region, rest2) =>
      if region.isEmpty then none
      else
        match splitFirstColon rest2 with
        | none => none
        | some (account, rest3) =>
          if account.isEmpty then none
          else
            match dropPre rest3 "parameter/".data with
            | none => none
            | some path =>
              if path.isEmpty then none
              else if path.all (fun c => c ≠ '\n') then some path else none

/-- Models `IsSSMARN`: the pattern matches the value. -/
def IsSSMARN (value : String) : Bool :=
  (ssmARNCapture value.data).isSome

/-- Models `ExtractParameterName`: the capture group of the pattern, with a
leading slash prepended when it does not already start with one; none when
the pattern does not match (the Go function's false flag). -/
def ExtractParameterName (arn : String) : Option String :=
  match ssmARNCapture arn.data with
  | none => none
  | some path =>
    if path.head? = some '/' then some (String.mk path)
    else some (String.mk ('/' :: path))

/-- Models `Resolver.ResolveValue` over an abstract backing store: `store`
models `GetParameter` with decryption, yielding the parameter's value or
none for the failure cases (API error, or a response without a value, which
the Go code also turns into an error).  The second component counts calls
made to the store. -/
def ResolveValue (store : String → Option String) (value : String) :
    Except String String × Nat :=
  if !IsSSMARN value then (Except.ok value, 0)
  else
    match ExtractParameterName value with
    | none => (Except.error ("invalid SSM ARN format: " ++ value), 0)
    | some paramName =>
      match store paramName with
      | none => (Except.error ("failed to get SSM parameter " ++ paramName), 1)
      | some v => (Except.ok v, 1)

/-- Models `http.Header.Get` on a native header map represented as an
association list from header names to their values in order: the first
value for the key, or "" when the key is absent or has no values.  Keys of
a server-parsed `http.Header` are already in canonical MIME form, so the
canonicalization `Get` applies to a key taken from the map itself leaves it
unchanged. -/
def headerGet (h : List (String × List String)) (k : String) : String :=
  match h.find? (fun kv => kv.1 == k) with
  | some (_, v :: _) => v
  | _ => ""

/-- Models `strings.ToLower` on (ASCII) header keys as a character-wise
lowercasing. -/
def goToLower (s : String) : String :=
  String.mk (s.data.map Char.toLower)

/-- Models the header-normalization loop of `App.ServeHTTP`
(src/internal/app/handler.go): for every key of the native header map,
store the single value `Header.Get` yields under the lower-cased key.  Go
map iteration order is modeled by list order. -/
def lowerHeaders (h : List (String × List String)) : List (String × String) :=
  h.map (fun kv => (goToLower kv.1, headerGet h kv.1))

/-- Models `shared.NormalizeHeaders` (src/internal/shared/constants.go):
lower-case every key of an already single-valued header map. -/
def NormalizeHeaders (headers : List (String × String)) : List (String × String) :=
  headers.map (fun kv => (goToLower kv.1, kv.2))

theorem setReadyTimes_succ {H : Type} (rg : ReadyGate H) :
    ∀ n, setReadyTimes (n + 1) rg = SetReady rg := by
  obtain ⟨ap, rd, hd, hc⟩ := rg
  intro n
  induction n with
  | zero => rfl
  | succ m ih =>
    show SetReady (setReadyTimes (m + 1) _) = _
    rw [ih]
    rfl

/-- C1: on an allow-listed path the gate dispatches to the installed handler
and returns the 503 "service starting up" JSON response (with a Retry-After
header) when none is installed; on other paths it returns the 503 "service
not ready, configuration loading" JSON response while not ready, and once
ready dispatches to the installed handler, again answering the "service
starting up" 503 only when no handler is installed. -/
theorem readyGate_serve_spec {H : Type} (rg : ReadyGate H)
    (dispatch : H → HTTPResponse) (path : String) :
    (isAllowedPath rg path = true →
      (∀ h, rg.handler = some h → ServeHTTP rg dispatch path = dispatch h) ∧
      (rg.handler = none → ServeHTTP rg dispatch path =
        ⟨503, [("Content-Type", "application/json"), ("Retry-After", "5")],
          "\x7b\"error\":\"service_unavailable\",\"message\":\"service starting up\"\x7d\n"⟩)) ∧
    (isAllowedPath rg path = false → rg.ready = false →
      ServeHTTP rg dispatch path =
        ⟨503, [("Content-Type", "application/json"), ("Retry-After", "5")],
          "\x7b\"error\":\"service_unavailable\",\"message\":\"service not ready, configuration loading\"\x7d\n"⟩) ∧
    (isAllowedPath rg path = false → rg.ready = true →
      (∀ h, rg.handler = some h → ServeHTTP rg dispatch path = dispatch h) ∧
      (rg.handler = none → ServeHTTP rg dispatch path =
        ⟨503, [("Content-Type", "application/json"), ("Retry-After", "5")],
          "\x7b\"error\":\"service_unavailable\",\"message\":\"service starting up\"\x7d\n"⟩)) := by
  refine ⟨fun hallow => ⟨fun h hh => ?_, fun hh => ?_⟩, fun hallow hnr => ?_,
    fun hallow hr => ⟨fun h hh => ?_, fun hh => ?_⟩⟩
  · simp [ServeHTTP, hallow, hh]
  · simp [ServeHTTP, hallow, hh, serveUnavailable, unavailableJSON]
  · simp [ServeHTTP, hallow, hnr, serveUnavailable, unavailableJSON]
  · simp [ServeHTTP, hallow, hr, hh]
  · simp [ServeHTTP, hallow, hr, hh, serveUnavailable, unavailableJSON]

/-- Witness for C1 at a concrete gate and path: a non-allow-listed path on a
not-ready gate yields the "service not ready, configuration loading" 503. -/
theorem readyGate_serve_spec_witness :
    ServeHTTP sampleGate sampleDispatch "/webhook" =
      ⟨503, [("Content-Type", "application/json"), ("Retry-After", "5")],
        "\x7b\"error\":\"service_unavailable\",\"message\":\"service not ready, configuration loading\"\x7d\n"⟩ :=
  (readyGate_serve_spec sampleGate sampleDispatch "/webhook").2.1 (by decide) rfl

/-- C5: the readiness flag is monotone under the gate operations: `SetReady`
always leaves it true (and `IsReady` then reports true), `SetHandler` never
changes it (in particular never reverts ready to not-ready), and calling
`SetReady` any number of times n with 1 ≤ n gives the same gate as calling
it once. -/
theorem readyGate_ready_monotone {H : Type} (rg : ReadyGate H) (h : H)
    (n : Nat) (hn : 1 ≤ n) :
    (SetReady rg).ready = true ∧
    IsReady (SetReady rg) = true ∧
    (SetHandler rg h).ready = rg.ready ∧
    (rg.ready = true → (SetHandler rg h).ready = true) ∧
    setReadyTimes n rg = SetReady rg := by
  refine ⟨rfl, rfl, rfl, fun hr => hr, ?_⟩
  cases n with
  | zero => omega
  | succ m => exact setReadyTimes_succ rg m

/-- Witness for C5 at a concrete gate with n = 3. -/
theorem readyGate_ready_monotone_witness :
    (SetReady sampleGate).ready = true ∧
    IsReady (SetReady sampleGate) = true ∧
    (SetHandler sampleGate ()).ready = sampleGate.ready ∧
    (sampleGate.ready = true → (SetHandler sampleGate ()).ready = true) ∧
    setReadyTimes 3 sampleGate = SetReady sampleGate :=
  readyGate_ready_monotone sampleGate () 3 (by decide)

/-- C8: the allow-list membership test accepts a path exactly when some
allow-list entry matches it, where the entry "/" matches only the path "/"
and any other entry matches every path having it as a prefix. -/
theorem isAllowedPath_iff {H : Type} (rg : ReadyGate H) (path : String) :
    isAllowedPath rg path = true ↔
      ∃ a, a ∈ rg.allowedPaths ∧
        ((a = "/" ∧ path = "/") ∨ (a ≠ "/" ∧ goHasPre path a = true)) := by
  unfold isAllowedPath
  rw [List.any_eq_true]
  constructor
  · rintro ⟨a, ha, hcond⟩
    refine ⟨a, ha, ?_⟩
    by_cases hslash : a = "/"
    · rw [if_pos hslash] at hcond
      exact Or.inl ⟨hslash, by simpa using hcond⟩
    · rw [if_neg hslash] at hcond
      exact Or.inr ⟨hslash, hcond⟩
  · rintro ⟨a, ha, ⟨h1, h2⟩ | ⟨h1, h2⟩⟩
    · exact ⟨a, ha, by simp [h1, h2]⟩
    · exact ⟨a, ha, by simp [h1, h2]⟩

theorem waitFrom_calls_le {E : Type} (cfg : Config) (ctx : Ctx E)
    (load : Nat → Option E) :
    ∀ fuel attempt lastErr,
      (waitFrom cfg ctx load fuel attempt lastErr).calls ≤ fuel := by
  intro fuel
  induction fuel with
  | zero => intro attempt lastErr; exact Nat.le_refl 0
  | succ f ih =>
    intro attempt lastErr
    unfold waitFrom
    split
    · exact Nat.zero_le _
    · split
      · rename_i e _
        split
        · split
          · show (1 : Nat) ≤ f + 1
            omega
          · have := ih (attempt + 1) (some e)
            show (waitFrom cfg ctx load f (attempt + 1) (some e)).calls + 1 ≤ f + 1
            omega
        · show (1 : Nat) ≤ f + 1
          omega
      · show (1 : Nat) ≤ f + 1
        omega

theorem waitFrom_first_success {E : Type} (cfg : Config) (ctx : Ctx E)
    (load : Nat → Option E) (m k : Nat)
    (hm : cfg.MaxRetries = (m : Int))
    (hnc : ∀ n, ctxCancelAt ctx n = false)
    (hk : k ≤ m) (hfail : ∀ i, 1 ≤ i → i < k → (load i).isSome = true)
    (hsucc : load k = none) :
    ∀ fuel attempt lastErr, 1 ≤ attempt → attempt ≤ k → fuel + attempt = m + 1 →
      waitFrom cfg ctx load fuel attempt lastErr =
        ⟨none, k + 1 - attempt, k - attempt⟩ := by
  intro fuel
  induction fuel with
  | zero => intro attempt lastErr h1 h2 h3; omega
  | succ f ih =>
    intro attempt lastErr h1 h2 h3
    unfold waitFrom
    rw [hm, if_neg (by omega : ¬ ((attempt : Int) > (m : Int)))]
    by_cases hak : attempt = k
    · subst hak
      rw [hsucc]
      have e1 : attempt + 1 - attempt = 1 := by omega
      have e2 : attempt - attempt = 0 := by omega
      rw [e1, e2]
    · have hs := hfail attempt h1 (by omega)
      obtain ⟨e, he⟩ := Option.isSome_iff_exists.mp hs
      rw [he]
      simp only
      rw [if_pos (by omega : (attempt : Int) < (m : Int)), hnc attempt]
      simp only [Bool.false_eq_true, if_false]
      rw [ih (attempt + 1) (some e) (by omega) (by omega) (by omega)]
      have e1 : k + 1 - (attempt + 1) + 1 = k + 1 - attempt := by omega
      have e2 : k - (attempt + 1) + 1 = k - attempt := by omega
      rw [e1, e2]

theorem waitFrom_all_fail {E : Type} (cfg : Config) (ctx : Ctx E)
    (load : Nat → Option E) (m : Nat)
    (hm : cfg.MaxRetries = (m : Int))
    (hnc : ∀ n, ctxCancelAt ctx n = false)
    (hfail : ∀ i, 1 ≤ i → i ≤ m → (load i).isSome = true) :
    ∀ fuel attempt lastErr, 1 ≤ attempt → attempt ≤ m → fuel + attempt = m + 1 →
      waitFrom cfg ctx load fuel attempt lastErr =
        ⟨load m, m + 1 - attempt, m - attempt⟩ := by
  intro fuel
  induction fuel with
  | zero => intro attempt lastErr h1 h2 h3; omega
  | succ f ih =>
    intro attempt lastErr h1 h2 h3
    unfold waitFrom
    rw [hm, if_neg (by omega : ¬ ((attempt : Int) > (m : Int)))]
    have hs := hfail attempt h1 h2
    obtain ⟨e, he⟩ := Option.isSome_iff_exists.mp hs
    rw [he]
    simp only
    by_cases ham : attempt = m
    · subst ham
      rw [if_neg (by omega : ¬ ((attempt : Int) < (attempt : Int))), he]
      have e1 : attempt + 1 - attempt = 1 := by omega
      have e2 : attempt - attempt = 0 := by omega
      rw [e1, e2]
    · rw [if_pos (by omega : (attempt : Int) < (m : Int)), hnc attempt]
      simp only [Bool.false_eq_true, if_false]
      rw [ih (attempt + 1) (some e) (by omega) (by omega) (by omega)]
      have e1 : m + 1 - (attempt + 1) + 1 = m + 1 - attempt := by omega
      have e2 : m - (attempt + 1) + 1 = m - attempt := by omega
      rw [e1, e2]

/-- C3: with no cancellation and `MaxRetries = m ≥ 1`, `Wait` invokes the
load function at most m times; if the first k-1 attempts fail and the k-th
succeeds (k ≤ m) it returns nil after exactly k invocations and k-1
completed inter-attempt sleeps (so no sleep after the final attempt); if
every attempt fails it returns the last attempt's error after exactly m
invocations and m-1 sleeps. -/
theorem wait_retry_spec {E : Type} (cfg : Config) (ctx : Ctx E)
    (load : Nat → Option E) (m : Nat) (hm : cfg.MaxRetries = (m : Int))
    (hpos : 1 ≤ m) (hnc : ∀ n, ctxCancelAt ctx n = false) :
    (Wait cfg ctx load).calls ≤ m ∧
    (∀ k, 1 ≤ k → k ≤ m → (∀ i, 1 ≤ i → i < k → (load i).isSome = true) →
      load k = none → Wait cfg ctx load = ⟨none, k, k - 1⟩) ∧
    ((∀ i, 1 ≤ i → i ≤ m → (load i).isSome = true) →
      Wait cfg ctx load = ⟨load m, m, m - 1⟩) := by
  have hfuel : cfg.MaxRetries.toNat = m := by omega
  refine ⟨?_, ?_, ?_⟩
  · have := waitFrom_calls_le cfg ctx load cfg.MaxRetries.toNat 1 none
    unfold Wait
    omega
  · intro k hk1 hk2 hfail hsucc
    unfold Wait
    rw [hfuel]
    rw [waitFrom_first_success cfg ctx load m k hm hnc hk2 hfail hsucc m 1 none
      (by omega) (by omega) (by omega)]
    have e1 : k + 1 - 1 = k := by omega
    rw [e1]
  · intro hfail
    unfold Wait
    rw [hfuel]
    rw [waitFrom_all_fail cfg ctx load m hm hnc hfail m 1 none
      (by omega) (by omega) (by omega)]
    have e1 : m + 1 - 1 = m := by omega
    rw [e1]

/-- Witness for C3: three attempts allowed, attempts 1 and 2 fail, attempt 3
succeeds: nil result, exactly 3 invocations, 2 sleeps. -/
theorem wait_retry_spec_witness :
    Wait ⟨3, 10⟩ ctxNever loadThird = ⟨none, 3, 2⟩ :=
  (wait_retry_spec ⟨3, 10⟩ ctxNever loadThird 3 rfl (by decide)
      (fun _ => rfl)).2.1 3 (by decide) (by decide)
    (fun i _ h2 => by
      have hne : i ≠ 3 := by omega
      simp [loadThird, hne]) rfl

/-- C4 counterexample: `Wait` performs no cancellation check before the
first load attempt.  For a context already cancelled before `Wait` starts
and a load function succeeding immediately, the code still invokes the load
function (one call) and returns nil rather than the context's cancellation
error with zero calls, contradicting the claim that cancellation is checked
before starting the first attempt. -/
theorem wait_precancel_counterexample :
    Wait ⟨5, 10⟩ (⟨true, fun _ => false, 7⟩ : Ctx Nat) (fun _ => none) =
      ⟨none, 1, 0⟩ ∧
    ¬ (Wait ⟨5, 10⟩ (⟨true, fun _ => false, 7⟩ : Ctx Nat) (fun _ => none) =
      ⟨some 7, 0, 0⟩) := by
  decide

/-- C4 (amended): `Wait` observes cancellation only in the `select` during
the sleep between attempts (there is no check before the first attempt);
when cancellation is observed in the sleep after a failed attempt 1 (with
at least two attempts allowed), `Wait` returns the context's cancellation
error immediately, with exactly one load invocation — in particular at most
two. -/
theorem wait_cancel_during_sleep {E : Type} (cfg : Config) (ctx : Ctx E)
    (load : Nat → Option E) (e : E) (hmax : 2 ≤ cfg.MaxRetries)
    (h1 : load 1 = some e) (hc : ctxCancelAt ctx 1 = true) :
    Wait cfg ctx load = ⟨some ctx.err, 1, 0⟩ ∧
    (Wait cfg ctx load).calls ≤ 2 := by
  have hf : ∃ f, cfg.MaxRetries.toNat = f + 1 := ⟨cfg.MaxRetries.toNat - 1, by omega⟩
  obtain ⟨f, hffuel⟩ := hf
  have hres : Wait cfg ctx load = ⟨some ctx.err, 1, 0⟩ := by
    unfold Wait
    rw [hffuel]
    unfold waitFrom
    rw [if_neg (by omega : ¬ (((1 : Nat) : Int) > cfg.MaxRetries)), h1]
    simp only
    rw [if_pos (by omega : ((1 : Nat) : Int) < cfg.MaxRetries), hc]
    simp
  refine ⟨hres, ?_⟩
  rw [hres]
  show (1 : Nat) ≤ 2
  omega

/-- Witness for C4's amended theorem: three attempts allowed, attempt 1
fails, cancellation observed during the first sleep: the context error (9)
is returned after one call. -/
theorem wait_cancel_during_sleep_witness :
    Wait ⟨3, 10⟩ (⟨false, fun _ => true, 9⟩ : Ctx Nat) (fun _ => some 0) =
      ⟨some 9, 1, 0⟩ ∧
    (Wait ⟨3, 10⟩ (⟨false, fun _ => true, 9⟩ : Ctx Nat) (fun _ => some 0)).calls ≤ 2 :=
  wait_cancel_during_sleep ⟨3, 10⟩ _ _ 0 (by decide) rfl rfl

theorem applyEnvMaxRetries_spec (cfg : Config) (v : String)
    (atoi : String → Option Int) :
    (0 < cfg.MaxRetries → 0 < (applyEnvMaxRetries cfg v atoi).MaxRetries) ∧
    (applyEnvMaxRetries cfg v atoi).RetryInterval = cfg.RetryInterval := by
  unfold applyEnvMaxRetries
  by_cases hv : v ≠ ""
  · rw [if_pos hv]
    cases hatoi : atoi v with
    | some n =>
      simp only
      by_cases hn : n > 0
      · rw [if_pos hn]; exact ⟨fun _ => hn, rfl⟩
      · rw [if_neg hn]; exact ⟨fun h => h, rfl⟩
    | none => exact ⟨fun h => h, rfl⟩
  · rw [if_neg hv]; exact ⟨fun h => h, rfl⟩

theorem applyEnvRetryInterval_spec (cfg : Config) (v : String)
    (parseDur : String → Option Int) :
    (0 < cfg.RetryInterval → 0 < (applyEnvRetryInterval cfg v parseDur).RetryInterval) ∧
    (applyEnvRetryInterval cfg v parseDur).MaxRetries = cfg.MaxRetries := by
  unfold applyEnvRetryInterval
  by_cases hv : v ≠ ""
  · rw [if_pos hv]
    cases hpd : parseDur v with
    | some d =>
      simp only
      by_cases hd : d > 0
      · rw [if_pos hd]; exact ⟨fun _ => hd, rfl⟩
      · rw [if_neg hd]; exact ⟨fun h => h, rfl⟩
    | none => exact ⟨fun h => h, rfl⟩
  · rw [if_neg hv]; exact ⟨fun h => h, rfl⟩

/-- C10: calling `Wait` with a non-positive MaxRetries returns nil (success)
with the load function never invoked and no sleeps, while `NewConfigFromEnv`
never produces such a config: whatever the environment and the outcomes of
parsing, both MaxRetries and RetryInterval stay positive (defaults 30 and
2e9 ns are only overridden by positive parsed values). -/
theorem wait_nonpositive_budget {E : Type} (cfg : Config) (ctx : Ctx E)
    (load : Nat → Option E) (hnp : cfg.MaxRetries ≤ 0)
    (getenv : String → String) (atoi parseDur : String → Option Int) :
    Wait cfg ctx load = ⟨none, 0, 0⟩ ∧
    0 < (NewConfigFromEnv getenv atoi parseDur).MaxRetries ∧
    0 < (NewConfigFromEnv getenv atoi parseDur).RetryInterval := by
  refine ⟨?_, ?_, ?_⟩
  · have h0 : cfg.MaxRetries.toNat = 0 := by omega
    unfold Wait
    rw [h0]
    rfl
  · unfold NewConfigFromEnv
    rw [(applyEnvRetryInterval_spec _ _ _).2]
    exact (applyEnvMaxRetries_spec _ _ _).1 (by decide)
  · unfold NewConfigFromEnv
    refine (applyEnvRetryInterval_spec _ _ _).1 ?_
    rw [(applyEnvMaxRetries_spec _ _ _).2]
    decide

/-- Witness for C10: MaxRetries 0 yields nil with zero invocations, and the
constructor applied to an empty environment yields the positive defaults. -/
theorem wait_nonpositive_budget_witness :
    Wait ⟨0, 10⟩ ctxNever loadThird = ⟨none, 0, 0⟩ ∧
    0 < (NewConfigFromEnv (fun _ => "") (fun _ => none) (fun _ => none)).MaxRetries ∧
    0 < (NewConfigFromEnv (fun _ => "") (fun _ => none) (fun _ => none)).RetryInterval :=
  wait_nonpositive_budget ⟨0, 10⟩ ctxNever loadThird (by decide)
    (fun _ => "") (fun _ => none) (fun _ => none)

theorem rinv_init : RInv initBurst :=
  ⟨rfl, fun _ => rfl, by decide, fun h => absurd h (by decide)⟩

theorem rinv_apply (s : RState) (a : RAct) (ha : enabledAct s a = true)
    (hinv : RInv s) : RInv (applyAct s a) := by
  obtain ⟨i1, i2, i3, i4⟩ := hinv
  cases a with
  | trigger =>
    have ht : s.trigs ≠ 0 := by
      simpa [enabledAct] using ha
    have hfin : s.finished = 0 := i2 (by omega)
    refine ⟨i1, fun _ => hfin, ?_, ?_⟩ <;>
      simp only [applyAct, Bool.toNat_true] <;>
      cases hr : s.running <;> rw [hr] at i1 <;> simp at i1 <;> omega
  | start =>
    have hp : s.pending = true ∧ s.running = false := by
      simpa [enabledAct] using ha
    rw [hp.1] at i3 i4
    rw [hp.2] at i1
    simp only [Bool.toNat_true, Bool.toNat_false] at i1 i3 i4
    refine ⟨?_, fun h => i2 h, ?_, ?_⟩ <;>
      simp only [applyAct, Bool.toNat_true, Bool.toNat_false] <;> omega
  | finish =>
    have hf : s.running = true ∧ s.trigs = 0 := by
      simpa [enabledAct] using ha
    rw [hf.1] at i1
    simp only [Bool.toNat_true] at i1
    refine ⟨?_, fun h => ?_, ?_, fun h => ?_⟩
    · simp only [applyAct, Bool.toNat_false]
      omega
    · simp only [applyAct] at h
      rw [hf.2] at h
      omega
    · simp only [applyAct]
      exact i3
    · simp only [applyAct] at h ⊢
      exact i4 h

theorem rinv_runTrace :
    ∀ (tr : List RAct) (s s' : RState), RInv s → runTrace s tr = some s' →
      RInv s' := by
  intro tr
  induction tr with
  | nil =>
    intro s s' hinv hrun
    cases hrun
    exact hinv
  | cons a tr ih =>
    intro s s' hinv hrun
    unfold runTrace at hrun
    by_cases ha : enabledAct s a = true
    · rw [if_pos ha] at hrun
      exact ih _ _ (rinv_apply s a ha hinv) hrun
    · rw [if_neg ha] at hrun
      cases hrun

theorem rsets_apply_le (s : RState) (a : RAct) (ha : enabledAct s a = true) :
    s.started + s.pending.toNat ≤
      (applyAct s a).started + (applyAct s a).pending.toNat := by
  cases a with
  | trigger =>
    simp only [applyAct, Bool.toNat_true]
    cases s.pending <;> simp
  | start =>
    have hp : s.pending = true := by
      simp [enabledAct] at ha
      exact ha.1
    rw [hp]
    simp only [applyAct, Bool.toNat_true, Bool.toNat_false]
    omega
  | finish =>
    simp only [applyAct]
    omega

theorem rsets_runTrace_le :
    ∀ (tr : List RAct) (s s' : RState), runTrace s tr = some s' →
      s.started + s.pending.toNat ≤ s'.started + s'.pending.toNat := by
  intro tr
  induction tr with
  | nil =>
    intro s s' hrun
    cases hrun
    omega
  | cons a tr ih =>
    intro s s' hrun
    unfold runTrace at hrun
    by_cases ha : enabledAct s a = true
    · rw [if_pos ha] at hrun
      exact le_trans (rsets_apply_le s a ha) (ih _ _ hrun)
    · rw [if_neg ha] at hrun
      cases hrun

theorem settled_shape (s : RState) (hs : settledState s = true) :
    s.trigs = 0 ∧ s.pending = false ∧ s.running = false := by
  have h := hs
  unfold settledState enabledAct at h
  simp only [Bool.and_eq_true, Bool.not_eq_true] at h
  obtain ⟨⟨h1, h2⟩, h3⟩ := h
  have ht : s.trigs = 0 := by
    by_cases h0 : s.trigs = 0
    · exact h0
    · simp [h0] at h1
  refine ⟨ht, ?_, ?_⟩
  · rw [ht] at h3
    simp at h3
    cases hr : s.running
    · rw [hr] at h2
      simp at h2
      exact h2
    · rw [hr] at h3
      cases h3
  · rw [ht] at h3
    simpa using h3

/-- C2: in the burst scenario of the Reloader (three Trigger calls arriving
while the load function is slow enough that no reload completes before the
burst ends), every complete interleaving that reaches a settled state has
executed the load function at least once and at most twice (never 0, never
3) and leaves the reload-in-progress flag false; moreover a Trigger call
arriving while a reload is running guarantees that a fresh reload runs to
completion after the current one finishes (two more completions than had
finished when the trigger arrived). -/
theorem reloader_burst_spec :
    (∀ (tr : List RAct) (s : RState), runTrace initBurst tr = some s →
      settledState s = true →
      1 ≤ s.finished ∧ s.finished ≤ 2 ∧ s.running = false) ∧
    (∀ (tr1 tr2 : List RAct) (s1 s2 : RState),
      runTrace initBurst tr1 = some s1 → s1.running = true →
      enabledAct s1 RAct.trigger = true →
      runTrace (applyAct s1 RAct.trigger) tr2 = some s2 →
      settledState s2 = true →
      s1.finished + 2 ≤ s2.finished) := by
  constructor
  · intro tr s hrun hsettled
    obtain ⟨i1, _, i3, i4⟩ := rinv_runTrace tr initBurst s rinv_init hrun
    obtain ⟨ht, hp, hr⟩ := settled_shape s hsettled
    rw [hr] at i1
    rw [hp] at i3 i4
    simp only [Bool.toNat_false] at i1 i3 i4
    have := i4 (by omega)
    exact ⟨by omega, by omega, hr⟩
  · intro tr1 tr2 s1 s2 hrun1 hrunning htrig hrun2 hsettled
    have hinv1 := rinv_runTrace tr1 initBurst s1 rinv_init hrun1
    have hinv2 : RInv s2 :=
      rinv_runTrace tr2 _ s2 (rinv_apply s1 RAct.trigger htrig hinv1) hrun2
    obtain ⟨i1, _, _, _⟩ := hinv1
    rw [hrunning] at i1
    simp only [Bool.toNat_true] at i1
    have hmono := rsets_runTrace_le tr2 (applyAct s1 RAct.trigger) s2 hrun2
    obtain ⟨ht2, hp2, hr2⟩ := settled_shape s2 hsettled
    obtain ⟨j1, _, _, _⟩ := hinv2
    rw [hr2] at j1
    rw [hp2] at hmono
    simp only [applyAct, Bool.toNat_true, Bool.toNat_false] at hmono j1
    omega

/-- Witness for C2 on a complete concrete interleaving: trigger, start,
trigger, trigger (dropped), finish, start, finish, reaching the settled
state with exactly two executions. -/
theorem reloader_burst_spec_witness :
    1 ≤ rburstFinal.finished ∧ rburstFinal.finished ≤ 2 ∧
      rburstFinal.running = false :=
  reloader_burst_spec.1
    [RAct.trigger, RAct.start, RAct.trigger, RAct.trigger, RAct.finish,
      RAct.start, RAct.finish]
    rburstFinal (by decide) (by decide)

/-- C6: when `doReload` actually runs (no reload already in progress) and
the load function fails, the gate afterwards is exactly the gate from
before — same installed handler reference, same readiness flag — and the
reloading flag is back to false (`doReload` is total: the Go code only logs
the failure, it never terminates the process); the handler reference can
change only when the load function succeeded. -/
theorem doReload_failure_frame {H E : Type} (outcome : Except E H)
    (rs : ReloadState) (g : ReadyGate H) :
    (∀ e, outcome = Except.error e →
      (doReload outcome rs g).2 = g ∧
      (doReload outcome rs g).2.handler = g.handler ∧
      (doReload outcome rs g).2.ready = g.ready) ∧
    ((doReload outcome rs g).2.handler ≠ g.handler →
      ∃ h, outcome = Except.ok h) ∧
    (rs.reloading = false → (doReload outcome rs g).1.reloading = false) := by
  refine ⟨fun e he => ?_, ?_, fun hr => ?_⟩
  · subst he
    cases hrel : rs.reloading <;>
      simp [doReload, hrel, runReloadFunc]
  · intro hne
    cases outcome with
    | ok h => exact ⟨h, rfl⟩
    | error e =>
      exfalso
      apply hne
      cases hrel : rs.reloading <;>
        simp [doReload, hrel, runReloadFunc]
  · cases hrel : rs.reloading
    · simp [doReload, hrel]
    · rw [hrel] at hr
      cases hr

/-- Witness for C6: a failing reload run on the sample gate leaves the gate
untouched. -/
theorem doReload_failure_frame_witness :
    (doReload (Except.error 5) ⟨false⟩ sampleGate).2 = sampleGate ∧
    (doReload (Except.error 5) ⟨false⟩ sampleGate).2.handler = sampleGate.handler ∧
    (doReload (Except.error 5) ⟨false⟩ sampleGate).2.ready = sampleGate.ready :=
  (doReload_failure_frame (Except.error 5) ⟨false⟩ sampleGate).1 5 rfl

/-- C7: a value the SSM-ARN pattern does not match is returned unchanged
with a nil error and zero calls to the backing store; a matching value
whose referenced parameter holds `secret` resolves to exactly `secret`
(with a single store call). -/
theorem resolveValue_spec (store : String → Option String)
    (value name secret : String) :
    (IsSSMARN value = false → ResolveValue store value = (Except.ok value, 0)) ∧
    (IsSSMARN value = true → ExtractParameterName value = some name →
      store name = some secret →
      ResolveValue store value = (Except.ok secret, 1)) := by
  constructor
  · intro hno
    simp [ResolveValue, hno]
  · intro hyes hname hstore
    simp [ResolveValue, hyes, hname, hstore]

/-- Witness for C7: a literal passes through untouched, and a concrete ARN
pointed at a store entry resolves to that entry's value. -/
theorem resolveValue_spec_witness :
    ResolveValue
      (fun n => if n = "/octo-sts/prod/GITHUB_APP_ID" then some "s3cr3t" else none)
      "plain-literal" = (Except.ok "plain-literal", 0) ∧
    ResolveValue
      (fun n => if n = "/octo-sts/prod/GITHUB_APP_ID" then some "s3cr3t" else none)
      "arn:aws:ssm:us-east-1:123456789012:parameter/octo-sts/prod/GITHUB_APP_ID" =
      (Except.ok "s3cr3t", 1) :=
  ⟨(resolveValue_spec _ "plain-literal" "" "").1 (by decide),
    (resolveValue_spec _ _ "/octo-sts/prod/GITHUB_APP_ID" "s3cr3t").2
      (by decide) (by decide) (by decide)⟩

/-- C9 counterexample: the long-running listener adapter takes the FIRST
value of a multi-valued header, not the last: `Header.Get` returns the
first element of the value slice, so a native request carrying
X-Foo: a and X-Foo: b normalizes to x-foo -> a, and not to x-foo -> b as
the claim's last-wins rule would require. -/
theorem lowerHeaders_counterexample :
    lowerHeaders [("X-Foo", ["a", "b"])] = [("x-foo", "a")] ∧
    ¬ lowerHeaders [("X-Foo", ["a", "b"])] = [("x-foo", "b")] := by
  decide

/-- C9 (amended): the adapter's header mapping carries, for every native
header entry, exactly one entry whose key is the lower-cased native key and
whose single string value is what `Header.Get` returns — the FIRST value
when the native request carries several for one name; `NormalizeHeaders`
likewise only lower-cases keys of an already single-valued map. -/
theorem lowerHeaders_spec (h : List (String × List String))
    (hs : List (String × String)) :
    (∀ e, e ∈ lowerHeaders h →
      ∃ kv, kv ∈ h ∧ e.1 = goToLower kv.1 ∧ e.2 = headerGet h kv.1) ∧
    (∀ kv, kv ∈ h → (goToLower kv.1, headerGet h kv.1) ∈ lowerHeaders h) ∧
    (∀ (k : String) (vs : List String) (rest : List (String × List String)),
      headerGet ((k, vs) :: rest) k = vs.headD "") ∧
    (∀ e, e ∈ NormalizeHeaders hs →
      ∃ kv, kv ∈ hs ∧ e = (goToLower kv.1, kv.2)) := by
  refine ⟨?_, ?_, ?_, ?_⟩
  · intro e he
    obtain ⟨kv, hkv, hfe⟩ := List.mem_map.mp he
    exact ⟨kv, hkv, by rw [← hfe], by rw [← hfe]⟩
  · intro kv hkv
    exact List.mem_map.mpr ⟨kv, hkv, rfl⟩
  · intro k vs rest
    cases vs <;> simp [headerGet]
  · intro e he
    obtain ⟨kv, hkv, hfe⟩ := List.mem_map.mp he
    exact ⟨kv, hkv, hfe.symm⟩

/-- Witness for C9's amended theorem: the lone produced entry for the
duplicate-valued header traces back to its native entry with the first
value. -/
theorem lowerHeaders_spec_witness :
    ∃ kv, kv ∈ [("X-Foo", ["a", "b"])] ∧
      ("x-foo", "a").1 = goToLower kv.1 ∧
      ("x-foo", "a").2 = headerGet [("X-Foo", ["a", "b"])] kv.1 :=
  (lowerHeaders_spec [("X-Foo", ["a", "b"])] []).1 ("x-foo", "a") (by decide)

end OctoSts
